import Mathlib

/-!
# GoDaddy DNS-01 solver (pkg/issuer/acme/dns/godaddy)

A shallow embedding of `client.go` and `godaddy.go`.

Conventions of the embedding.

* A Go `string` is a Lean `String`; `strings.Index` and slicing act on
  symbol positions.
* A Go `error` is the text of its message; a function returning
  `(T, error)` returns `Except String T`, a function returning
  `(*T, error)` returns `Except String (Option T)`.
* The HTTP exchange is explicit state passing: the `World` holds the state
  of the remote API and the list of requests handed to the HTTP client.
* Library and external code (zone resolution, URL resolution, the HTTP
  round trip, JSON parsing of an error object) are fields of `Env`.
-/

set_option linter.unusedVariables false

namespace Godaddy

/-! ## Strings -/

/-- Library `strings.Index` on symbol lists: the index of the first instance
of `substr` in the list, `none` (Go: `-1`) when there is none. -/
def indexList (substr : List Char) : List Char → Option Nat
  | [] => if substr.isPrefixOf [] then some 0 else none
  | c :: cs =>
    if substr.isPrefixOf (c :: cs) then some 0
    else (indexList substr cs).map (· + 1)

/-- Library `strings.Index(s, substr)`. -/
def stringsIndex (s substr : String) : Option Nat :=
  indexList substr.data s.data

/-- Modelled from the spec: `util.UnFqdn` of the zone-resolution utility,
which is not part of the source files; `UnFqdn(name)` is the name without
its trailing dot (one trailing dot removed, a name without one unchanged). -/
def UnFqdn (name : String) : String :=
  if name.data.getLast? = some '.' then String.mk name.data.dropLast else name

/-- Function `extractRecordName` of godaddy.go: the part of the name (trailing dot
removed) before
the first occurrence of `"." + zone`, the whole name when there is none. -/
def extractRecordName (fqdn zone : String) : String :=
  let name := UnFqdn fqdn
  match stringsIndex name ("." ++ zone) with
  | some idx => String.mk (name.data.take idx)
  | none => name

/-! ## Data model (client.go) -/

/-- The constant `baseURL` of client.go. -/
def baseURL : String := "https://api.godaddy.com"

/-- The struct `Client`: the parsed base URL is kept as its text, the HTTP
client as its timeout in seconds. -/
structure Client where
  baseURL : String
  apiKey : String
  apiSecret : String
  httpTimeoutSeconds : Nat
deriving DecidableEq, Repr

/-- The struct `APIError`. -/
structure APIError where
  code : String
  message : String
deriving DecidableEq, Repr

/-- The struct `DNSRecord`; every field defaults to its Go zero value. -/
structure DNSRecord where
  name : String := ""
  type : String := ""
  data : String := ""
  ttl : Int := 0
  priority : Int := 0
  port : Int := 0
  protocol : String := ""
  service : String := ""
  weight : Int := 0
deriving DecidableEq, Repr

/-- The three HTTP methods the client uses (`http.MethodGet`,
`http.MethodPut`, `http.MethodDelete`). -/
inductive Method where
  | GET
  | PUT
  | DELETE
deriving DecidableEq, Repr

/-- An HTTP request as `newRequest` builds it: method, resolved URL, the
three headers it sets, and the body. The body of a PUT is the JSON array
`json.Marshal([]DNSRecord{...})` writes, kept as the sequence of records it
encodes (marshalling a slice of structs of strings and ints has no failing
case). -/
structure Request where
  method : Method
  url : String
  accept : String
  contentType : String
  authorization : String
  body : Option (List DNSRecord)
deriving DecidableEq, Repr

/-- A response body, seen through the two ways the client consumes it:
`raw` is the outcome of `io.ReadAll(resp.Body)` (the bytes, or a read
error), `records` is the outcome of
`json.NewDecoder(resp.Body).Decode(&records)` into a `[]DNSRecord` (the
decoded sequence, or a read or decode error). -/
structure Body where
  raw : Except String String
  records : Except String (List DNSRecord)

/-- An HTTP response: status code and body. -/
structure Response where
  statusCode : Nat
  body : Body

/-- The state the calls act on: the state of the remote API and the
requests handed to `httpClient.Do` so far, oldest first. -/
structure World (σ : Type) where
  server : σ
  sent : List Request

/-- Library and external code the package calls.

* `FindZoneByFqdn` is `util.FindZoneByFqdn` (the authoritative zone of a
  name, or an error).
* `resolveURL base url` is `c.baseURL.Parse(path.Join(c.baseURL.Path, url))`
  followed by the URL parsing of `http.NewRequest`: the text of the request
  URL, or an error.
* `Do` is `httpClient.Do`: a response or a transport error, and the new
  state of the remote API.
* `jsonAPIError` parses a byte sequence as a JSON object into an
  `APIError`. -/
structure Env (σ : Type) where
  FindZoneByFqdn : String → List String → Except String String
  resolveURL : String → String → Except String String
  Do : Request → σ → Except String Response × σ
  jsonAPIError : String → Except String APIError

/-- The struct `DNSProvider`. -/
structure DNSProvider where
  dns01Nameservers : List String
  client : Client
deriving DecidableEq, Repr

/-! ## Client (client.go) -/

/-- Function `NewClient` of client.go. -/
def NewClient (apiKey apiSecret : String) : Client :=
  { baseURL := baseURL, apiKey := apiKey, apiSecret := apiSecret, httpTimeoutSeconds := 30 }

/-- The request `newRequest` builds for a resolved URL: `http.NewRequest`
followed by the three `req.Header.Set` calls. -/
def buildRequest (c : Client) (method : Method) (reqURL : String)
    (body : Option (List DNSRecord)) : Request :=
  { method := method
    url := reqURL
    accept := "application/json"
    contentType := "application/json"
    authorization := "sso-key " ++ c.apiKey ++ ":" ++ c.apiSecret
    body := body }

/-- Method `Client.newRequest`: resolve the URL, build the request, hand it to the
HTTP client. A request that cannot be built is not sent. -/
def newRequest {σ : Type} (env : Env σ) (c : Client) (method : Method) (url : String)
    (body : Option (List DNSRecord)) (w : World σ) : Except String Response × World σ :=
  match env.resolveURL c.baseURL url with
  | .error err => (.error err, w)
  | .ok reqURL =>
    let req := buildRequest c method reqURL body
    let out := env.Do req w.server
    (out.1, { server := out.2, sent := w.sent ++ [req] })

/-- Library `json.Unmarshal(data, v)` for a target `v` of type `*APIError`
(`none` is the nil pointer): an error when `data` does not parse, an
`InvalidUnmarshalError` when the target is nil, the parsed value stored
through the pointer otherwise. -/
def jsonUnmarshal (parse : String → Except String APIError) (data : String)
    (v : Option APIError) : Except String APIError :=
  match parse data, v with
  | .error err, _ => .error err
  | .ok _, none => .error "json: Unmarshal(nil *godaddy.APIError)"
  | .ok e, some _ => .ok e

/-- Function `parseAPIError`: `apiErr` is declared and never allocated, so the
target handed to `json.Unmarshal` is the nil pointer. -/
def parseAPIError {σ : Type} (env : Env σ) (body : String) : String :=
  let apiErr : Option APIError := none
  match jsonUnmarshal env.jsonAPIError body apiErr with
  | .error _ => body
  | .ok e => e.code ++ " " ++ e.message

/-- The path `fmt.Sprintf("/v1/domains/%s/records/TXT/%s", domain, recordName)`
the three client calls build. -/
def recordsPath (domain recordName : String) : String :=
  "/v1/domains/" ++ domain ++ "/records/TXT/" ++ recordName

/-- The loop of `GetTXTRecord`: the first record whose name is
`recordName`, nil when the loop ends without one. -/
def firstNamed (recordName : String) : List DNSRecord → Option DNSRecord
  | [] => none
  | r :: rs => if r.name = recordName then some r else firstNamed recordName rs

/-- Method `Client.GetTXTRecord`. -/
def GetTXTRecord {σ : Type} (env : Env σ) (c : Client) (domain recordName : String)
    (w : World σ) : Except String (Option DNSRecord) × World σ :=
  if recordName = "" then (.error "record name cannot be empty", w)
  else
    let url := recordsPath domain recordName
    match newRequest env c .GET url none w with
    | (.error err, w1) => (.error err, w1)
    | (.ok resp, w1) =>
      if resp.statusCode ≠ 200 then
        match resp.body.raw with
        | .error err =>
          (.error ("failed to get record " ++ recordName ++ " for domain " ++ domain
            ++ ": " ++ err), w1)
        | .ok bodyBytes =>
          (.error ("failed to get record " ++ recordName ++ " for domain " ++ domain
            ++ ": " ++ parseAPIError env bodyBytes), w1)
      else
        match resp.body.records with
        | .error err => (.error err, w1)
        | .ok records => (.ok (firstNamed recordName records), w1)

/-- Method `Client.SetTXTRecord`. -/
def SetTXTRecord {σ : Type} (env : Env σ) (c : Client) (domain recordName : String)
    (record : DNSRecord) (w : World σ) : Except String Unit × World σ :=
  let body := [record]
  let url := recordsPath domain recordName
  match newRequest env c .PUT url (some body) w with
  | (.error err, w1) => (.error err, w1)
  | (.ok resp, w1) =>
    if resp.statusCode ≠ 200 then
      match resp.body.raw with
      | .error err =>
        (.error ("failed to create record " ++ recordName ++ " for domain " ++ domain
          ++ ": " ++ err), w1)
      | .ok bodyBytes =>
        (.error ("failed to create record " ++ recordName ++ " for domain " ++ domain
          ++ ": " ++ parseAPIError env bodyBytes), w1)
    else (.ok (), w1)

/-- Method `Client.DeleteTXTRecord`. -/
def DeleteTXTRecord {σ : Type} (env : Env σ) (c : Client) (domain recordName : String)
    (w : World σ) : Except String Unit × World σ :=
  let url := recordsPath domain recordName
  match newRequest env c .DELETE url none w with
  | (.error err, w1) => (.error err, w1)
  | (.ok resp, w1) =>
    if resp.statusCode = 204 ∨ resp.statusCode = 404 then (.ok (), w1)
    else
      match resp.body.raw with
      | .error err =>
        (.error ("failed to delete record " ++ recordName ++ " for domain " ++ domain
          ++ ": " ++ err), w1)
      | .ok bodyBytes =>
        (.error ("failed to delete record " ++ recordName ++ " for domain " ++ domain
          ++ ": " ++ parseAPIError env bodyBytes), w1)

/-! ## Provider (godaddy.go) -/

/-- Function `NewDNSProviderCredentials` of godaddy.go. -/
def NewDNSProviderCredentials (key secret : String) (dns01Nameservers : List String) :
    Except String DNSProvider :=
  if key = "" ∨ secret = "" then .error "godaddy: missing credentials"
  else .ok { dns01Nameservers := dns01Nameservers, client := NewClient key secret }

/-- Method `DNSProvider.Present`. -/
def Present {σ : Type} (env : Env σ) (p : DNSProvider) (domain fqdn value : String)
    (w : World σ) : Except String Unit × World σ :=
  match env.FindZoneByFqdn fqdn p.dns01Nameservers with
  | .error err => (.error err, w)
  | .ok authZone =>
    let zoneName := UnFqdn authZone
    let recordName := extractRecordName fqdn zoneName
    match GetTXTRecord env p.client zoneName recordName w with
    | (.error err, w1) => (.error err, w1)
    | (.ok none, w1) =>
      SetTXTRecord env p.client zoneName recordName
        { name := recordName, type := "TXT", data := value } w1
    | (.ok (some record), w1) =>
      if record.data ≠ value then
        SetTXTRecord env p.client zoneName recordName { record with data := value } w1
      else (.ok (), w1)

/-- Method `DNSProvider.CleanUp`: the value takes no part in it. -/
def CleanUp {σ : Type} (env : Env σ) (p : DNSProvider) (domain fqdn value : String)
    (w : World σ) : Except String Unit × World σ :=
  match env.FindZoneByFqdn fqdn p.dns01Nameservers with
  | .error err => (.error err, w)
  | .ok authZone =>
    let zoneName := UnFqdn authZone
    let recordName := extractRecordName fqdn zoneName
    DeleteTXTRecord env p.client zoneName recordName w

/-! ## A record store -/

/-- The state of a record store: the records held at each request URL, the
latest entry for a URL first. -/
abbrev Store := List (String × List DNSRecord)

/-- The records a store holds at a URL. -/
def Store.records (s : Store) (url : String) : List DNSRecord :=
  (s.lookup url).getD []

/-- The body of the answers of the store: the decoded records; the store sends no
text besides (the client reads the text only on an error status). -/
def storeBody (records : List DNSRecord) : Body :=
  { raw := .ok "", records := .ok records }

/-- A record store behind the REST API: GET answers 200 with the records
held at the URL, PUT replaces them by the body and answers 200, DELETE
answers 404 when there are none and 204 after removing them otherwise. -/
def storeDo (req : Request) (s : Store) : Except String Response × Store :=
  match req.method with
  | .GET => (.ok { statusCode := 200, body := storeBody (s.records req.url) }, s)
  | .PUT => (.ok { statusCode := 200, body := storeBody [] }, (req.url, req.body.getD []) :: s)
  | .DELETE =>
    if s.records req.url = [] then (.ok { statusCode := 404, body := storeBody [] }, s)
    else (.ok { statusCode := 204, body := storeBody [] }, (req.url, []) :: s)

/-- An environment over the record store: every name resolves to the zone
`authZone`, a request URL is the base URL followed by the path, and no body
parses as an API error object. -/
def storeEnv (authZone : String) : Env Store :=
  { FindZoneByFqdn := fun _ _ => .ok authZone
    resolveURL := fun base url => .ok (base ++ url)
    Do := storeDo
    jsonAPIError := fun _ => .error "invalid character" }

/-- A provider with the credentials "key" and "secret". -/
def demoProvider : DNSProvider :=
  { dns01Nameservers := ["8.8.8.8:53"], client := NewClient "key" "secret" }

/-- The world before any request: an empty record store, nothing sent. -/
def emptyWorld : World Store :=
  { server := [], sent := [] }

/-- The request URL of the record "_acme-challenge" of the zone
"example.com" in the store environment. -/
def demoURL : String :=
  "https://api.godaddy.com/v1/domains/example.com/records/TXT/_acme-challenge"

/-- Three records held at `demoURL`: one of another name, then two named
"_acme-challenge". -/
def demoRecords : List DNSRecord :=
  [ { name := "other", type := "TXT", data := "x" },
    { name := "_acme-challenge", type := "TXT", data := "old", ttl := 600 },
    { name := "_acme-challenge", type := "TXT", data := "older" } ]

/-- A world whose store holds `demoRecords` at `demoURL`, nothing sent. -/
def demoWorld : World Store :=
  { server := [(demoURL, demoRecords)], sent := [] }

/-- An error body of the REST API: a JSON object with a code and a
message. -/
def demoErrorBody : String :=
  "\x7b\"code\":\"NOT_FOUND\",\"message\":\"record not found\"\x7d"

/-- The store environment with a JSON parser that parses `demoErrorBody`
into its code and message. -/
def demoParseEnv : Env Store :=
  { FindZoneByFqdn := fun _ _ => .ok "example.com."
    resolveURL := fun base url => .ok (base ++ url)
    Do := storeDo
    jsonAPIError := fun b =>
      if b = demoErrorBody then .ok { code := "NOT_FOUND", message := "record not found" }
      else .error "invalid character" }

/-- An environment whose API answers every request with status 500 and the
text "internal error". -/
def failingEnv : Env Unit :=
  { FindZoneByFqdn := fun _ _ => .ok "example.com."
    resolveURL := fun base url => .ok (base ++ url)
    Do := fun _ s =>
      (.ok { statusCode := 500
             body := { raw := .ok "internal error", records := .error "invalid character" } }, s)
    jsonAPIError := fun _ => .error "invalid character" }

/-- The first invalid percent escape of a URL path, as `net/url` finds it
when it parses a URL: a "%" that is not followed by two hexadecimal digits,
with the (at most two) symbols after it; `none` when every escape is valid. -/
def badEscape : List Char → Option String
  | [] => none
  | [c] => if c = '%' then some (String.mk [c]) else none
  | [c, a] => if c = '%' then some (String.mk [c, a]) else badEscape [a]
  | c :: a :: b :: rest =>
    if c = '%' then
      if "0123456789abcdefABCDEF".data.contains a ∧ "0123456789abcdefABCDEF".data.contains b
      then badEscape rest
      else some (String.mk [c, a, b])
    else badEscape (a :: b :: rest)

/-- An environment over the record store with stricter collaborators: a name
resolves to the zone `authZone` when it ends with "." followed by the zone,
and a request URL is the base URL followed by the path unless the path has an
invalid percent escape, which `url.Parse` rejects with the error shown. -/
def strictEnv (authZone : String) : Env Store :=
  { FindZoneByFqdn := fun fqdn _ =>
      if ("." ++ authZone).data.isSuffixOf fqdn.data then .ok authZone
      else .error "could not find the start of authority"
    resolveURL := fun base url =>
      match badEscape url.data with
      | none => .ok (base ++ url)
      | some esc => .error ("parse \"" ++ url ++ "\": invalid URL escape \"" ++ esc ++ "\"")
    Do := storeDo
    jsonAPIError := fun _ => .error "invalid character" }

/-- A faithful record store, seen from the client: every GET succeeds with
status 200, answers the records held at its URL and changes nothing; every
PUT succeeds with status 200, after which the records held at its URL are
the ones of its body. -/
structure FaithfulStore {σ : Type} (env : Env σ) (records : σ → String → List DNSRecord) :
    Prop where
  get : ∀ (req : Request) (s : σ), req.method = .GET →
    ∃ resp, env.Do req s = (.ok resp, s) ∧ resp.statusCode = 200 ∧
      resp.body.records = .ok (records s req.url)
  put : ∀ (req : Request) (s : σ) (recs : List DNSRecord), req.method = .PUT →
    req.body = some recs →
    ∃ resp s', env.Do req s = (.ok resp, s') ∧ resp.statusCode = 200 ∧
      records s' req.url = recs

/-! ## Lemmas on strings -/

theorem indexList_skip (z tail : List Char) :
    ∀ l : List Char, '.' ∉ l → indexList ('.' :: z) (l ++ '.' :: (z ++ tail)) = some l.length
  | [], _ => by
    simp [indexList, List.isPrefixOf]
  | c :: l, h => by
    have hc : c ≠ '.' := fun e => h (by simp [e])
    have hl : '.' ∉ l := fun e => h (by simp [e])
    have ih := indexList_skip z tail l hl
    have hne : ('.' == c) = false := by
      simp only [beq_eq_false_iff_ne, ne_eq]
      exact fun e => hc e.symm
    simp [indexList, List.isPrefixOf, hne, ih]

theorem UnFqdn_dot (s : String) : UnFqdn (s ++ ".") = s := by
  have hd : (s ++ ".").data = s.data ++ ['.'] := by
    simp [String.data_append]
  unfold UnFqdn
  rw [hd]
  simp

/-! ## Claims on `extractRecordName` -/

/-- C5: for every label without a "." and every zone,
`extractRecordName(label + "." + zone + ".", zone)` is the label. -/
theorem extractRecordName_label (label zone : String) (h : '.' ∉ label.data) :
    extractRecordName (label ++ "." ++ zone ++ ".") zone = label := by
  unfold extractRecordName
  simp only [UnFqdn_dot]
  have hname : (label ++ "." ++ zone).data = label.data ++ '.' :: (zone.data ++ []) := by
    simp [String.data_append]
  have hsub : ("." ++ zone).data = '.' :: zone.data := by
    simp [String.data_append]
  have hidx : stringsIndex (label ++ "." ++ zone) ("." ++ zone) = some label.data.length := by
    unfold stringsIndex
    rw [hname, hsub]
    exact indexList_skip zone.data [] label.data h
  rw [hidx]
  simp only [hname]
  simp

/-- C5 at the example of the specification: the label of "_acme-challenge.example.com." in
the zone "example.com". -/
theorem extractRecordName_label_witness :
    '.' ∉ "_acme-challenge".data ∧
      extractRecordName ("_acme-challenge" ++ "." ++ "example.com" ++ ".") "example.com"
        = "_acme-challenge" :=
  ⟨by decide, extractRecordName_label "_acme-challenge" "example.com" (by decide)⟩

/-- C4, at the input the claim names: the name "a.example.com.example.com"
ends with ".example.com", the code cuts it at the first occurrence of
".example.com" and returns "a", and "a" + "." + zone is not the name. -/
theorem extractRecordName_repeated_zone :
    ("." ++ "example.com").data <:+ (UnFqdn "a.example.com.example.com.").data ∧
      extractRecordName "a.example.com.example.com." "example.com" = "a" ∧
      extractRecordName "a.example.com.example.com." "example.com" ++ "." ++ "example.com"
        ≠ UnFqdn "a.example.com.example.com." := by
  decide

/-! ## Claims on the client -/

theorem parseAPIError_raw {σ : Type} (env : Env σ) (body : String) :
    parseAPIError env body = body := by
  unfold parseAPIError jsonUnmarshal
  cases env.jsonAPIError body <;> rfl

/-- C10, on the code: the body `demoErrorBody` parses as the object with
code "NOT_FOUND" and message "record not found", and `parseAPIError` returns
the raw body text, not "NOT_FOUND record not found". -/
theorem parseAPIError_drops_code_message :
    demoParseEnv.jsonAPIError demoErrorBody
        = .ok { code := "NOT_FOUND", message := "record not found" } ∧
      parseAPIError demoParseEnv demoErrorBody = demoErrorBody ∧
      parseAPIError demoParseEnv demoErrorBody ≠ "NOT_FOUND" ++ " " ++ "record not found" := by
  refine ⟨rfl, parseAPIError_raw demoParseEnv demoErrorBody, ?_⟩
  rw [parseAPIError_raw]
  decide

theorem firstNamed_none (recordName : String) :
    ∀ L : List DNSRecord, (∀ r ∈ L, r.name ≠ recordName) → firstNamed recordName L = none
  | [], _ => rfl
  | r :: rs, h => by
    have hr : r.name ≠ recordName := h r (by simp)
    have ih := firstNamed_none recordName rs (fun x hx => h x (by simp [hx]))
    simp [firstNamed, hr, ih]

theorem firstNamed_first (recordName : String) (r : DNSRecord) (post : List DNSRecord)
    (hr : r.name = recordName) :
    ∀ pre : List DNSRecord, (∀ x ∈ pre, x.name ≠ recordName) →
      firstNamed recordName (pre ++ r :: post) = some r
  | [], _ => by simp [firstNamed, hr]
  | x :: xs, h => by
    have hx : x.name ≠ recordName := h x (by simp)
    have ih := firstNamed_first recordName r post hr xs (fun y hy => h y (by simp [hy]))
    simp [firstNamed, hx, ih]

theorem firstNamed_name (recordName : String) (r : DNSRecord) :
    ∀ L : List DNSRecord, firstNamed recordName L = some r → r.name = recordName ∧ r ∈ L
  | [], h => by simp [firstNamed] at h
  | x :: xs, h => by
    by_cases hx : x.name = recordName
    · simp [firstNamed, hx] at h
      subst h
      exact ⟨hx, by simp⟩
    · simp [firstNamed, hx] at h
      have ih := firstNamed_name recordName r xs h
      exact ⟨ih.1, by simp [ih.2]⟩

/-- C7: for a non-empty record name and a 200 response whose body decodes
to the list `L`, `GetTXTRecord` returns without error; the result is nil
when no element of `L` has that name, and it is the first element of `L`
with that name when there is one. -/
theorem GetTXTRecord_first_match {σ : Type} (env : Env σ) (c : Client)
    (domain recordName : String) (w w1 : World σ) (resp : Response) (L : List DNSRecord)
    (hname : recordName ≠ "")
    (hreq : newRequest env c .GET (recordsPath domain recordName) none w = (.ok resp, w1))
    (hstatus : resp.statusCode = 200) (hbody : resp.body.records = .ok L) :
    ∃ result, GetTXTRecord env c domain recordName w = (.ok result, w1) ∧
      ((∀ r ∈ L, r.name ≠ recordName) → result = none) ∧
      (∀ pre r post, L = pre ++ r :: post → (∀ x ∈ pre, x.name ≠ recordName) →
        r.name = recordName → result = some r) := by
  refine ⟨firstNamed recordName L, ?_, ?_, ?_⟩
  · simp [GetTXTRecord, hname, hreq, hstatus, hbody]
  · exact firstNamed_none recordName L
  · intro pre r post hL hpre hr
    rw [hL]
    exact firstNamed_first recordName r post hr pre hpre

/-- C7 at a concrete input: the store holds `demoRecords` at the URL of
"_acme-challenge". -/
theorem GetTXTRecord_first_match_witness :
    "_acme-challenge" ≠ "" ∧
      ∃ result, GetTXTRecord (storeEnv "example.com.") demoProvider.client "example.com"
          "_acme-challenge" demoWorld
          = (.ok result,
              { server := demoWorld.server
                sent := [buildRequest demoProvider.client .GET demoURL none] }) ∧
        ((∀ r ∈ demoRecords, r.name ≠ "_acme-challenge") → result = none) ∧
        (∀ pre r post, demoRecords = pre ++ r :: post →
          (∀ x ∈ pre, x.name ≠ "_acme-challenge") →
          r.name = "_acme-challenge" → result = some r) :=
  ⟨by decide,
    GetTXTRecord_first_match (storeEnv "example.com.") demoProvider.client "example.com"
      "_acme-challenge" demoWorld
      { server := demoWorld.server, sent := [buildRequest demoProvider.client .GET demoURL none] }
      { statusCode := 200, body := storeBody demoRecords } demoRecords
      (by decide) rfl rfl rfl⟩

/-- C6: when the transport delivers a response to the DELETE,
`DeleteTXTRecord` returns nil exactly when the status is 204 or 404; for any
other status it returns an error, whose text ends with the response body
when the body can be read. -/
theorem DeleteTXTRecord_status {σ : Type} (env : Env σ) (c : Client)
    (domain recordName : String) (w w1 : World σ) (resp : Response)
    (hreq : newRequest env c .DELETE (recordsPath domain recordName) none w = (.ok resp, w1)) :
    ((DeleteTXTRecord env c domain recordName w).1 = .ok () ↔
        (resp.statusCode = 204 ∨ resp.statusCode = 404)) ∧
      (¬ (resp.statusCode = 204 ∨ resp.statusCode = 404) →
        ∃ msg, (DeleteTXTRecord env c domain recordName w).1 = .error msg ∧
          ∀ b, resp.body.raw = .ok b → ∃ pre, msg = pre ++ b) := by
  by_cases hs : resp.statusCode = 204 ∨ resp.statusCode = 404
  · simp [DeleteTXTRecord, hreq, hs]
  · constructor
    · cases hraw : resp.body.raw <;> simp [DeleteTXTRecord, hreq, hs, hraw]
    · intro _
      cases hraw : resp.body.raw with
      | error err =>
        refine ⟨"failed to delete record " ++ recordName ++ " for domain " ++ domain
          ++ ": " ++ err, by simp [DeleteTXTRecord, hreq, hs, hraw], ?_⟩
        intro b hb
        cases hb
      | ok bodyBytes =>
        refine ⟨"failed to delete record " ++ recordName ++ " for domain " ++ domain
          ++ ": " ++ bodyBytes, ?_, ?_⟩
        · simp [DeleteTXTRecord, hreq, hs, hraw, parseAPIError_raw]
        · intro b hb
          cases hb
          exact ⟨_, rfl⟩

/-- C6 at a concrete input: the API answers the DELETE with status 500 and
the text "internal error". -/
theorem DeleteTXTRecord_status_witness :
    newRequest failingEnv demoProvider.client .DELETE
        (recordsPath "example.com" "_acme-challenge") none { server := (), sent := [] }
        = (.ok { statusCode := 500
                 body := { raw := .ok "internal error", records := .error "invalid character" } },
            { server := (), sent := [buildRequest demoProvider.client .DELETE demoURL none] }) ∧
      ((DeleteTXTRecord failingEnv demoProvider.client "example.com" "_acme-challenge"
            { server := (), sent := [] }).1 = .ok () ↔
          ((500 : Nat) = 204 ∨ (500 : Nat) = 404)) ∧
      (¬ ((500 : Nat) = 204 ∨ (500 : Nat) = 404) →
        ∃ msg, (DeleteTXTRecord failingEnv demoProvider.client "example.com" "_acme-challenge"
            { server := (), sent := [] }).1 = .error msg ∧
          ∀ b, (Except.ok "internal error" : Except String String) = .ok b →
            ∃ pre, msg = pre ++ b) :=
  ⟨rfl,
    DeleteTXTRecord_status failingEnv demoProvider.client "example.com" "_acme-challenge"
      { server := (), sent := [] }
      { server := (), sent := [buildRequest demoProvider.client .DELETE demoURL none] }
      { statusCode := 500
        body := { raw := .ok "internal error", records := .error "invalid character" } } rfl⟩

/-! ## Claims on the provider -/

/-- C8: `NewDNSProviderCredentials` fails exactly when the key or the secret
is empty; it then returns the error "godaddy: missing credentials" and no
provider; otherwise the provider holds the given nameservers and a client
with exactly that key and secret. -/
theorem NewDNSProviderCredentials_spec (key secret : String) (ns : List String) :
    ((∃ err, NewDNSProviderCredentials key secret ns = .error err) ↔
        (key = "" ∨ secret = "")) ∧
      ((key = "" ∨ secret = "") →
        NewDNSProviderCredentials key secret ns = .error "godaddy: missing credentials") ∧
      (¬ (key = "" ∨ secret = "") →
        ∃ p, NewDNSProviderCredentials key secret ns = .ok p ∧ p.dns01Nameservers = ns ∧
          p.client.apiKey = key ∧ p.client.apiSecret = secret) := by
  by_cases h : key = "" ∨ secret = ""
  · simp [NewDNSProviderCredentials, h]
  · simp [NewDNSProviderCredentials, h, NewClient]

/-! ## Lemmas on the requests sent -/

theorem newRequest_of_url {σ : Type} (env : Env σ) (c : Client) (method : Method)
    (url u : String) (body : Option (List DNSRecord)) (w : World σ)
    (hurl : env.resolveURL c.baseURL url = .ok u) :
    newRequest env c method url body w =
      ((env.Do (buildRequest c method u body) w.server).1,
        { server := (env.Do (buildRequest c method u body) w.server).2
          sent := w.sent ++ [buildRequest c method u body] }) := by
  simp [newRequest, hurl]

theorem newRequest_ok_url {σ : Type} (env : Env σ) (c : Client) (method : Method)
    (url : String) (body : Option (List DNSRecord)) (w w1 : World σ) (resp : Response)
    (h : newRequest env c method url body w = (.ok resp, w1)) :
    ∃ u, env.resolveURL c.baseURL url = .ok u := by
  cases hurl : env.resolveURL c.baseURL url with
  | error err => simp [newRequest, hurl] at h
  | ok u => exact ⟨u, rfl⟩

theorem GetTXTRecord_ok_inv {σ : Type} (env : Env σ) (c : Client)
    (domain recordName : String) (w w1 : World σ) (res : Option DNSRecord)
    (h : GetTXTRecord env c domain recordName w = (.ok res, w1)) :
    recordName ≠ "" ∧
      ∃ u, env.resolveURL c.baseURL (recordsPath domain recordName) = .ok u ∧
        w1.sent = w.sent ++ [buildRequest c .GET u none] ∧
        (∀ r, res = some r → r.name = recordName) := by
  by_cases hname : recordName = ""
  · simp [GetTXTRecord, hname] at h
  · refine ⟨hname, ?_⟩
    cases hurl : env.resolveURL c.baseURL (recordsPath domain recordName) with
    | error err => simp [GetTXTRecord, hname, newRequest, hurl] at h
    | ok u =>
      refine ⟨u, rfl, ?_⟩
      have hreq := newRequest_of_url env c .GET _ u none w hurl
      unfold GetTXTRecord at h
      simp only [hname, if_false, hreq] at h
      cases hout : (env.Do (buildRequest c .GET u none) w.server).1 with
      | error err => simp [hout] at h
      | ok resp =>
        simp only [hout] at h
        by_cases hs : resp.statusCode = 200
        · cases hrec : resp.body.records with
          | error err => simp [hs, hrec] at h
          | ok L =>
            simp [hs, hrec] at h
            refine ⟨by rw [← h.2], ?_⟩
            intro r hr
            rw [← h.1] at hr
            exact (firstNamed_name recordName r L hr).1
        · cases hraw : resp.body.raw <;> simp [hs, hraw] at h

theorem SetTXTRecord_sent {σ : Type} (env : Env σ) (c : Client)
    (domain recordName u : String) (record : DNSRecord) (w : World σ)
    (hurl : env.resolveURL c.baseURL (recordsPath domain recordName) = .ok u) :
    (SetTXTRecord env c domain recordName record w).2.sent
      = w.sent ++ [buildRequest c .PUT u (some [record])] := by
  have hreq := newRequest_of_url env c .PUT _ u (some [record]) w hurl
  unfold SetTXTRecord
  simp only [hreq]
  cases hout : (env.Do (buildRequest c .PUT u (some [record])) w.server).1 with
  | error err => rfl
  | ok resp =>
    by_cases hs : resp.statusCode = 200
    · simp [hs]
    · cases hraw : resp.body.raw <;> simp [hs, hraw]

theorem DeleteTXTRecord_sent {σ : Type} (env : Env σ) (c : Client)
    (domain recordName u : String) (w : World σ)
    (hurl : env.resolveURL c.baseURL (recordsPath domain recordName) = .ok u) :
    (DeleteTXTRecord env c domain recordName w).2.sent
      = w.sent ++ [buildRequest c .DELETE u none] := by
  have hreq := newRequest_of_url env c .DELETE _ u none w hurl
  unfold DeleteTXTRecord
  simp only [hreq]
  cases hout : (env.Do (buildRequest c .DELETE u none) w.server).1 with
  | error err => rfl
  | ok resp =>
    by_cases hs : resp.statusCode = 204 ∨ resp.statusCode = 404
    · simp [hs]
    · cases hraw : resp.body.raw <;> simp [hs, hraw]


theorem SetTXTRecord_outcome {σ : Type} (env : Env σ) (c : Client)
    (domain recordName u : String) (record : DNSRecord) (w : World σ)
    (hurl : env.resolveURL c.baseURL (recordsPath domain recordName) = .ok u) :
    (SetTXTRecord env c domain recordName record w).2.server
        = (env.Do (buildRequest c .PUT u (some [record])) w.server).2 ∧
      (∀ e, (env.Do (buildRequest c .PUT u (some [record])) w.server).1 = .error e →
        (SetTXTRecord env c domain recordName record w).1 = .error e) ∧
      (∀ resp, (env.Do (buildRequest c .PUT u (some [record])) w.server).1 = .ok resp →
        ((SetTXTRecord env c domain recordName record w).1 = .ok () ↔
          resp.statusCode = 200)) := by
  have hreq := newRequest_of_url env c .PUT _ u (some [record]) w hurl
  unfold SetTXTRecord
  simp only [hreq]
  cases hout : (env.Do (buildRequest c .PUT u (some [record])) w.server).1 with
  | error err =>
    refine ⟨rfl, ?_, ?_⟩
    · intro e he
      cases he
      rfl
    · intro resp hresp
      cases hresp
  | ok resp =>
    by_cases hs : resp.statusCode = 200
    · refine ⟨by simp [hs], ?_, ?_⟩
      · intro e he
        cases he
      · intro resp2 hresp
        cases hresp
        simp [hs]
    · refine ⟨?_, ?_, ?_⟩
      · cases hraw : resp.body.raw <;> simp [hs, hraw]
      · intro e he
        cases he
      · intro resp2 hresp
        cases hresp
        cases hraw : resp.body.raw <;> simp [hs, hraw]

/-! ## Claims on `Present` and `CleanUp` -/

/-- C2: when zone resolution succeeds and `GetTXTRecord` returns nil without
error, the request URL `u` of the path
"/v1/domains/zoneName/records/TXT/recordName" resolves, the lookup has sent
one GET to `u`, and `Present` sends exactly one more request: the PUT to `u`
whose body is the one-element sequence holding the record with name
recordName, type "TXT", data value and every other field zero. `Present`
returns the result of that PUT: the transport error when there is one, nil
exactly when the answer has status 200; it is the call of `SetTXTRecord`. -/
theorem Present_creates_record {σ : Type} (env : Env σ) (p : DNSProvider)
    (domain fqdn value authZone : String) (w w1 : World σ)
    (hzone : env.FindZoneByFqdn fqdn p.dns01Nameservers = .ok authZone)
    (hget : GetTXTRecord env p.client (UnFqdn authZone)
      (extractRecordName fqdn (UnFqdn authZone)) w = (.ok none, w1)) :
    ∃ (u : String) (put : Request),
      env.resolveURL p.client.baseURL
        ("/v1/domains/" ++ UnFqdn authZone ++ "/records/TXT/"
          ++ extractRecordName fqdn (UnFqdn authZone)) = .ok u ∧
      put = { method := .PUT, url := u, accept := "application/json",
              contentType := "application/json",
              authorization := "sso-key " ++ p.client.apiKey ++ ":" ++ p.client.apiSecret,
              body := some [
                { name := extractRecordName fqdn (UnFqdn authZone), type := "TXT",
                  data := value, ttl := 0, priority := 0, port := 0, protocol := "",
                  service := "", weight := 0 }] } ∧
      w1.sent = w.sent ++ [
        { method := .GET, url := u, accept := "application/json",
          contentType := "application/json",
          authorization := "sso-key " ++ p.client.apiKey ++ ":" ++ p.client.apiSecret,
          body := none }] ∧
      (Present env p domain fqdn value w).2.sent = w1.sent ++ [put] ∧
      (Present env p domain fqdn value w).2.server = (env.Do put w1.server).2 ∧
      (∀ e, (env.Do put w1.server).1 = .error e →
        (Present env p domain fqdn value w).1 = .error e) ∧
      (∀ resp, (env.Do put w1.server).1 = .ok resp →
        ((Present env p domain fqdn value w).1 = .ok () ↔ resp.statusCode = 200)) ∧
      Present env p domain fqdn value w
        = SetTXTRecord env p.client (UnFqdn authZone) (extractRecordName fqdn (UnFqdn authZone))
            { name := extractRecordName fqdn (UnFqdn authZone), type := "TXT", data := value,
              ttl := 0, priority := 0, port := 0, protocol := "", service := "", weight := 0 }
            w1 := by
  obtain ⟨_, u, hurl, hsent, _⟩ := GetTXTRecord_ok_inv env p.client _ _ w w1 none hget
  have hP : Present env p domain fqdn value w
      = SetTXTRecord env p.client (UnFqdn authZone) (extractRecordName fqdn (UnFqdn authZone))
          { name := extractRecordName fqdn (UnFqdn authZone), type := "TXT", data := value }
          w1 := by
    simp [Present, hzone, hget]
  obtain ⟨hserver, herr, hok⟩ := SetTXTRecord_outcome env p.client (UnFqdn authZone)
    (extractRecordName fqdn (UnFqdn authZone)) u
    { name := extractRecordName fqdn (UnFqdn authZone), type := "TXT", data := value } w1 hurl
  have hput := SetTXTRecord_sent env p.client (UnFqdn authZone)
    (extractRecordName fqdn (UnFqdn authZone)) u
    { name := extractRecordName fqdn (UnFqdn authZone), type := "TXT", data := value } w1 hurl
  refine ⟨u, _, hurl, rfl, hsent, ?_, ?_, ?_, ?_, hP⟩
  · rw [hP]
    exact hput
  · rw [hP]
    exact hserver
  · rw [hP]
    exact herr
  · rw [hP]
    exact hok

/-- C2 at a concrete input: the fresh name "_acme-challenge.example.com." over
the empty record store. The lookup returns nil, and `Present` sends the GET
and the one PUT of the fresh record and returns nil. -/
theorem Present_creates_record_witness :
    GetTXTRecord (storeEnv "example.com.") demoProvider.client (UnFqdn "example.com.")
        (extractRecordName "_acme-challenge.example.com." (UnFqdn "example.com.")) emptyWorld
        = (.ok none,
            { server := [], sent := [buildRequest demoProvider.client .GET demoURL none] }) ∧
      (Present (storeEnv "example.com.") demoProvider "example.com"
          "_acme-challenge.example.com." "token" emptyWorld).2.sent
        = [ { method := .GET
              url := "https://api.godaddy.com/v1/domains/example.com/records/TXT/_acme-challenge"
              accept := "application/json", contentType := "application/json"
              authorization := "sso-key key:secret", body := none },
            { method := .PUT
              url := "https://api.godaddy.com/v1/domains/example.com/records/TXT/_acme-challenge"
              accept := "application/json", contentType := "application/json"
              authorization := "sso-key key:secret"
              body := some [
                { name := "_acme-challenge", type := "TXT", data := "token",
                  ttl := 0, priority := 0, port := 0, protocol := "", service := "",
                  weight := 0 }] } ] ∧
      (Present (storeEnv "example.com.") demoProvider "example.com"
          "_acme-challenge.example.com." "token" emptyWorld).1 = .ok () := by
  have hget : GetTXTRecord (storeEnv "example.com.") demoProvider.client (UnFqdn "example.com.")
      (extractRecordName "_acme-challenge.example.com." (UnFqdn "example.com.")) emptyWorld
      = (.ok none,
          { server := [], sent := [buildRequest demoProvider.client .GET demoURL none] }) := rfl
  obtain ⟨u, put, hu, hput, _, hsent, _, _, hok, _⟩ :=
    Present_creates_record (storeEnv "example.com.") demoProvider
      "example.com" "_acme-challenge.example.com." "token" "example.com." emptyWorld _ rfl hget
  have hu2 : demoURL = u := Except.ok.inj hu
  subst hu2
  subst hput
  refine ⟨hget, ?_, ?_⟩
  · rw [hsent]
    rfl
  · exact (hok { statusCode := 200, body := storeBody [] } rfl).2 rfl

/-- C3: when `GetTXTRecord` returns the record `r`, the request URL `u` of the
path "/v1/domains/zoneName/records/TXT/recordName" resolves and the lookup
has sent one GET to `u`. If `r.data` differs from the value, `Present` sends
exactly one more request, the PUT to `u` whose body is the one record that
equals `r` in every field except data, which is the value, and returns the
result of that PUT (the transport error when there is one, nil exactly when
the answer has status 200). If `r.data` is the value, `Present` sends nothing
more and returns nil. -/
theorem Present_updates_record {σ : Type} (env : Env σ) (p : DNSProvider)
    (domain fqdn value authZone : String) (w w1 : World σ) (r : DNSRecord)
    (hzone : env.FindZoneByFqdn fqdn p.dns01Nameservers = .ok authZone)
    (hget : GetTXTRecord env p.client (UnFqdn authZone)
      (extractRecordName fqdn (UnFqdn authZone)) w = (.ok (some r), w1)) :
    ∃ u : String,
      env.resolveURL p.client.baseURL
        ("/v1/domains/" ++ UnFqdn authZone ++ "/records/TXT/"
          ++ extractRecordName fqdn (UnFqdn authZone)) = .ok u ∧
      w1.sent = w.sent ++ [
        { method := .GET, url := u, accept := "application/json",
          contentType := "application/json",
          authorization := "sso-key " ++ p.client.apiKey ++ ":" ++ p.client.apiSecret,
          body := none }] ∧
      (r.data ≠ value →
        ∃ (rec : DNSRecord) (put : Request),
          rec.data = value ∧ rec.name = r.name ∧ rec.type = r.type ∧ rec.ttl = r.ttl ∧
          rec.priority = r.priority ∧ rec.port = r.port ∧ rec.protocol = r.protocol ∧
          rec.service = r.service ∧ rec.weight = r.weight ∧
          put = { method := .PUT, url := u, accept := "application/json",
                  contentType := "application/json",
                  authorization := "sso-key " ++ p.client.apiKey ++ ":" ++ p.client.apiSecret,
                  body := some [rec] } ∧
          (Present env p domain fqdn value w).2.sent = w1.sent ++ [put] ∧
          (Present env p domain fqdn value w).2.server = (env.Do put w1.server).2 ∧
          (∀ e, (env.Do put w1.server).1 = .error e →
            (Present env p domain fqdn value w).1 = .error e) ∧
          (∀ resp, (env.Do put w1.server).1 = .ok resp →
            ((Present env p domain fqdn value w).1 = .ok () ↔ resp.statusCode = 200)) ∧
          Present env p domain fqdn value w
            = SetTXTRecord env p.client (UnFqdn authZone)
                (extractRecordName fqdn (UnFqdn authZone)) rec w1) ∧
      (r.data = value →
        Present env p domain fqdn value w = (.ok (), w1) ∧
          (Present env p domain fqdn value w).2.sent = w1.sent ∧
          (Present env p domain fqdn value w).1 = .ok ()) := by
  obtain ⟨_, u, hurl, hsent, _⟩ := GetTXTRecord_ok_inv env p.client _ _ w w1 (some r) hget
  refine ⟨u, hurl, hsent, ?_, ?_⟩
  · intro hne
    have hP : Present env p domain fqdn value w
        = SetTXTRecord env p.client (UnFqdn authZone)
            (extractRecordName fqdn (UnFqdn authZone)) { r with data := value } w1 := by
      simp [Present, hzone, hget, hne]
    obtain ⟨hserver, herr, hok⟩ := SetTXTRecord_outcome env p.client (UnFqdn authZone)
      (extractRecordName fqdn (UnFqdn authZone)) u { r with data := value } w1 hurl
    have hput := SetTXTRecord_sent env p.client (UnFqdn authZone)
      (extractRecordName fqdn (UnFqdn authZone)) u { r with data := value } w1 hurl
    refine ⟨{ r with data := value }, _, rfl, rfl, rfl, rfl, rfl, rfl, rfl, rfl, rfl, rfl,
      ?_, ?_, ?_, ?_, hP⟩
    · rw [hP]
      exact hput
    · rw [hP]
      exact hserver
    · rw [hP]
      exact herr
    · rw [hP]
      exact hok
  · intro heq
    have hP : Present env p domain fqdn value w = (.ok (), w1) := by
      simp [Present, hzone, hget, heq]
    refine ⟨hP, ?_, ?_⟩
    · rw [hP]
    · rw [hP]

/-- C3 at a concrete input: the store holds `demoRecords`; the first record
named "_acme-challenge" has data "old" and ttl 600, and the value is "token".
`Present` sends the GET and the one PUT of that record with data "token"
and returns nil. -/
theorem Present_updates_record_witness :
    GetTXTRecord (storeEnv "example.com.") demoProvider.client (UnFqdn "example.com.")
        (extractRecordName "_acme-challenge.example.com." (UnFqdn "example.com.")) demoWorld
        = (.ok (some { name := "_acme-challenge", type := "TXT", data := "old", ttl := 600 }),
            { server := demoWorld.server
              sent := [buildRequest demoProvider.client .GET demoURL none] }) ∧
      (Present (storeEnv "example.com.") demoProvider "example.com"
          "_acme-challenge.example.com." "token" demoWorld).2.sent
        = [ { method := .GET
              url := "https://api.godaddy.com/v1/domains/example.com/records/TXT/_acme-challenge"
              accept := "application/json", contentType := "application/json"
              authorization := "sso-key key:secret", body := none },
            { method := .PUT
              url := "https://api.godaddy.com/v1/domains/example.com/records/TXT/_acme-challenge"
              accept := "application/json", contentType := "application/json"
              authorization := "sso-key key:secret"
              body := some [
                { name := "_acme-challenge", type := "TXT", data := "token", ttl := 600,
                  priority := 0, port := 0, protocol := "", service := "", weight := 0 }] } ] ∧
      (Present (storeEnv "example.com.") demoProvider "example.com"
          "_acme-challenge.example.com." "token" demoWorld).1 = .ok () := by
  have hget : GetTXTRecord (storeEnv "example.com.") demoProvider.client (UnFqdn "example.com.")
      (extractRecordName "_acme-challenge.example.com." (UnFqdn "example.com.")) demoWorld
      = (.ok (some { name := "_acme-challenge", type := "TXT", data := "old", ttl := 600 }),
          { server := demoWorld.server
            sent := [buildRequest demoProvider.client .GET demoURL none] }) := rfl
  obtain ⟨u, hu, _, hupd, _⟩ := Present_updates_record (storeEnv "example.com.") demoProvider
    "example.com" "_acme-challenge.example.com." "token" "example.com." demoWorld _ _ rfl hget
  have hu2 : demoURL = u := Except.ok.inj hu
  subst hu2
  obtain ⟨rec, put, h1, h2, h3, h4, h5, h6, h7, h8, h9, hput, hsent, _, _, hok, _⟩ :=
    hupd (by decide)
  have hrec : rec = { name := "_acme-challenge", type := "TXT", data := "token", ttl := 600 } := by
    cases rec
    simp_all
  subst hrec
  subst hput
  refine ⟨hget, ?_, ?_⟩
  · rw [hsent]
    rfl
  · exact (hok { statusCode := 200, body := storeBody [] } rfl).2 rfl

theorem DeleteTXTRecord_unsent {σ : Type} (env : Env σ) (c : Client)
    (domain recordName err : String) (w : World σ)
    (hurl : env.resolveURL c.baseURL (recordsPath domain recordName) = .error err) :
    DeleteTXTRecord env c domain recordName w = (.error err, w) := by
  simp [DeleteTXTRecord, newRequest, hurl]

theorem DeleteTXTRecord_outcome {σ : Type} (env : Env σ) (c : Client)
    (domain recordName u : String) (w : World σ)
    (hurl : env.resolveURL c.baseURL (recordsPath domain recordName) = .ok u) :
    (∀ e, (env.Do (buildRequest c .DELETE u none) w.server).1 = .error e →
        (DeleteTXTRecord env c domain recordName w).1 = .error e) ∧
      (∀ resp, (env.Do (buildRequest c .DELETE u none) w.server).1 = .ok resp →
        ((DeleteTXTRecord env c domain recordName w).1 = .ok () ↔
          (resp.statusCode = 204 ∨ resp.statusCode = 404))) := by
  have hreq := newRequest_of_url env c .DELETE _ u none w hurl
  unfold DeleteTXTRecord
  simp only [hreq]
  cases hout : (env.Do (buildRequest c .DELETE u none) w.server).1 with
  | error err =>
    refine ⟨?_, ?_⟩
    · intro e he
      cases he
      rfl
    · intro resp hresp
      cases hresp
  | ok resp =>
    refine ⟨?_, ?_⟩
    · intro e he
      cases he
    · intro resp2 hresp
      cases hresp
      by_cases hs : resp.statusCode = 204 ∨ resp.statusCode = 404
      · simp [hs]
      · cases hraw : resp.body.raw <;> simp [hs, hraw]

/-- C9: `CleanUp` does not depend on the value. For two values it returns the
same result and leaves the same world, and every request it sends is a
DELETE (no GET, no PUT). When the zone resolves and the request URL `u` of
the path "/v1/domains/zoneName/records/TXT/recordName", with recordName =
extractRecordName(fqdn, zoneName), resolves, both calls send exactly one
request, the DELETE to `u` without a body; both return the transport error
when there is one, and nil exactly when the answer has status 204 or 404, so
in particular when it is 404. -/
theorem CleanUp_ignores_value {σ : Type} (env : Env σ) (p : DNSProvider)
    (domain fqdn v1 v2 : String) (w : World σ) :
    CleanUp env p domain fqdn v1 w = CleanUp env p domain fqdn v2 w ∧
      (∃ extra, (CleanUp env p domain fqdn v1 w).2.sent = w.sent ++ extra ∧
        (CleanUp env p domain fqdn v2 w).2.sent = w.sent ++ extra ∧
        ∀ r ∈ extra, r.method = .DELETE) ∧
      (∀ authZone u, env.FindZoneByFqdn fqdn p.dns01Nameservers = .ok authZone →
        env.resolveURL p.client.baseURL
          ("/v1/domains/" ++ UnFqdn authZone ++ "/records/TXT/"
            ++ extractRecordName fqdn (UnFqdn authZone)) = .ok u →
        ∃ del : Request,
          del = { method := .DELETE, url := u, accept := "application/json",
                  contentType := "application/json",
                  authorization := "sso-key " ++ p.client.apiKey ++ ":" ++ p.client.apiSecret,
                  body := none } ∧
          (CleanUp env p domain fqdn v1 w).2.sent = w.sent ++ [del] ∧
          (CleanUp env p domain fqdn v2 w).2.sent = w.sent ++ [del] ∧
          (∀ e, (env.Do del w.server).1 = .error e →
            (CleanUp env p domain fqdn v1 w).1 = .error e ∧
              (CleanUp env p domain fqdn v2 w).1 = .error e) ∧
          (∀ resp, (env.Do del w.server).1 = .ok resp →
            ((CleanUp env p domain fqdn v1 w).1 = .ok () ↔
                (resp.statusCode = 204 ∨ resp.statusCode = 404)) ∧
              ((CleanUp env p domain fqdn v2 w).1 = .ok () ↔
                (resp.statusCode = 204 ∨ resp.statusCode = 404)) ∧
              (resp.statusCode = 404 →
                (CleanUp env p domain fqdn v1 w).1 = .ok () ∧
                  (CleanUp env p domain fqdn v2 w).1 = .ok ()))) := by
  have hsame : CleanUp env p domain fqdn v1 w = CleanUp env p domain fqdn v2 w := rfl
  refine ⟨hsame, ?_, ?_⟩
  · rw [← hsame]
    cases hzone : env.FindZoneByFqdn fqdn p.dns01Nameservers with
    | error err => exact ⟨[], by simp [CleanUp, hzone], by simp [CleanUp, hzone], by simp⟩
    | ok authZone =>
      cases hurl : env.resolveURL p.client.baseURL
          (recordsPath (UnFqdn authZone) (extractRecordName fqdn (UnFqdn authZone))) with
      | error err =>
        have h0 : (CleanUp env p domain fqdn v1 w).2.sent = w.sent ++ [] := by
          simp [CleanUp, hzone, DeleteTXTRecord_unsent env p.client _ _ err w hurl]
        exact ⟨[], h0, h0, by simp⟩
      | ok u =>
        have h1 : (CleanUp env p domain fqdn v1 w).2.sent
            = w.sent ++ [buildRequest p.client .DELETE u none] := by
          simp only [CleanUp, hzone]
          exact DeleteTXTRecord_sent env p.client _ _ u w hurl
        refine ⟨[buildRequest p.client .DELETE u none], h1, h1, ?_⟩
        intro r hr
        simp at hr
        rw [hr]
        rfl
  · intro authZone u hzone hurl
    have hC : ∀ v, CleanUp env p domain fqdn v w
        = DeleteTXTRecord env p.client (UnFqdn authZone)
            (extractRecordName fqdn (UnFqdn authZone)) w := by
      intro v
      simp only [CleanUp, hzone]
    have hsent := DeleteTXTRecord_sent env p.client (UnFqdn authZone)
      (extractRecordName fqdn (UnFqdn authZone)) u w hurl
    obtain ⟨herr, hok⟩ := DeleteTXTRecord_outcome env p.client (UnFqdn authZone)
      (extractRecordName fqdn (UnFqdn authZone)) u w hurl
    refine ⟨_, rfl, ?_, ?_, ?_, ?_⟩
    · rw [hC v1]
      exact hsent
    · rw [hC v2]
      exact hsent
    · intro e he
      rw [hC v1, hC v2]
      exact ⟨herr e he, herr e he⟩
    · intro resp hresp
      rw [hC v1, hC v2]
      exact ⟨hok resp hresp, hok resp hresp,
        fun h404 => ⟨(hok resp hresp).2 (Or.inr h404), (hok resp hresp).2 (Or.inr h404)⟩⟩

/-- C9 at a concrete input: over the empty store, which answers 404, `CleanUp`
with the values "one" and "two" sends the one DELETE for "_acme-challenge" in
"example.com" and returns nil. -/
theorem CleanUp_ignores_value_witness :
    CleanUp (storeEnv "example.com.") demoProvider "example.com"
        "_acme-challenge.example.com." "one" emptyWorld
      = CleanUp (storeEnv "example.com.") demoProvider "example.com"
        "_acme-challenge.example.com." "two" emptyWorld ∧
      (CleanUp (storeEnv "example.com.") demoProvider "example.com"
        "_acme-challenge.example.com." "one" emptyWorld).2.sent
        = [ { method := .DELETE
              url := "https://api.godaddy.com/v1/domains/example.com/records/TXT/_acme-challenge"
              accept := "application/json", contentType := "application/json"
              authorization := "sso-key key:secret", body := none } ] ∧
      (CleanUp (storeEnv "example.com.") demoProvider "example.com"
        "_acme-challenge.example.com." "two" emptyWorld).2.sent
        = [ { method := .DELETE
              url := "https://api.godaddy.com/v1/domains/example.com/records/TXT/_acme-challenge"
              accept := "application/json", contentType := "application/json"
              authorization := "sso-key key:secret", body := none } ] ∧
      (CleanUp (storeEnv "example.com.") demoProvider "example.com"
        "_acme-challenge.example.com." "one" emptyWorld).1 = .ok () ∧
      (CleanUp (storeEnv "example.com.") demoProvider "example.com"
        "_acme-challenge.example.com." "two" emptyWorld).1 = .ok () := by
  have h := CleanUp_ignores_value (storeEnv "example.com.") demoProvider "example.com"
    "_acme-challenge.example.com." "one" "two" emptyWorld
  obtain ⟨del, hdel, hs1, hs2, _, hok⟩ :=
    h.2.2 "example.com."
      "https://api.godaddy.com/v1/domains/example.com/records/TXT/_acme-challenge" rfl
      (congrArg Except.ok (by decide))
  subst hdel
  have h404 := (hok { statusCode := 404, body := storeBody [] } rfl).2.2 rfl
  refine ⟨h.1, ?_, ?_, h404.1, h404.2⟩
  · rw [hs1]
    rfl
  · rw [hs2]
    rfl

/-! ## Idempotence of `Present` over a faithful record store -/

theorem storeEnv_faithful (authZone : String) :
    FaithfulStore (storeEnv authZone) Store.records where
  get := by
    intro req s hm
    refine ⟨{ statusCode := 200, body := storeBody (s.records req.url) }, ?_, rfl, rfl⟩
    simp [storeEnv, storeDo, hm]
  put := by
    intro req s recs hm hb
    refine ⟨{ statusCode := 200, body := storeBody [] }, (req.url, req.body.getD []) :: s,
      ?_, rfl, ?_⟩
    · simp only [storeEnv, storeDo, hm]
    · simp [Store.records, List.lookup, hb]

theorem strictEnv_faithful (authZone : String) :
    FaithfulStore (strictEnv authZone) Store.records where
  get := by
    intro req s hm
    refine ⟨{ statusCode := 200, body := storeBody (s.records req.url) }, ?_, rfl, rfl⟩
    simp [strictEnv, storeDo, hm]
  put := by
    intro req s recs hm hb
    refine ⟨{ statusCode := 200, body := storeBody [] }, (req.url, req.body.getD []) :: s,
      ?_, rfl, ?_⟩
    · simp only [strictEnv, storeDo, hm]
    · simp [Store.records, List.lookup, hb]

theorem GetTXTRecord_faithful {σ : Type} (env : Env σ) (records : σ → String → List DNSRecord)
    (hstore : FaithfulStore env records) (c : Client) (domain recordName u : String)
    (w : World σ) (hname : recordName ≠ "")
    (hurl : env.resolveURL c.baseURL (recordsPath domain recordName) = .ok u) :
    GetTXTRecord env c domain recordName w
      = (.ok (firstNamed recordName (records w.server u)),
          { server := w.server, sent := w.sent ++ [buildRequest c .GET u none] }) := by
  obtain ⟨resp, hdo, hs, hrec⟩ := hstore.get (buildRequest c .GET u none) w.server rfl
  have hrec2 : resp.body.records = .ok (records w.server u) := hrec
  simp [GetTXTRecord, hname, newRequest_of_url env c .GET _ u none w hurl, hdo, hs, hrec2]

theorem SetTXTRecord_faithful {σ : Type} (env : Env σ) (records : σ → String → List DNSRecord)
    (hstore : FaithfulStore env records) (c : Client) (domain recordName u : String)
    (record : DNSRecord) (w : World σ)
    (hurl : env.resolveURL c.baseURL (recordsPath domain recordName) = .ok u) :
    ∃ s', records s' u = [record] ∧
      SetTXTRecord env c domain recordName record w
        = (.ok (), { server := s', sent := w.sent ++ [buildRequest c .PUT u (some [record])] }) := by
  obtain ⟨resp, s', hdo, hs, hrec⟩ :=
    hstore.put (buildRequest c .PUT u (some [record])) w.server [record] rfl rfl
  refine ⟨s', hrec, ?_⟩
  simp [SetTXTRecord, newRequest_of_url env c .PUT _ u (some [record]) w hurl, hdo, hs]

/-- C1, amended: over a faithful record store in which no record at the
request URL `u` of (zoneName, recordName) has data = value, when zone
resolution succeeds, the record name is not empty and the request URL of the
path "/v1/domains/zoneName/records/TXT/recordName" resolves to `u`, two
consecutive calls `Present(domain, fqdn, value)` both return nil. The first
sends the GET to `u` and then one PUT to `u` whose one record is named
recordName and has data = value, and the store then holds that record at
`u`. The second sends the GET only and leaves the store as the first call
left it. So the two calls add exactly one PUT to the requests sent. -/
theorem Present_idempotent {σ : Type} (env : Env σ) (records : σ → String → List DNSRecord)
    (hstore : FaithfulStore env records) (p : DNSProvider)
    (domain fqdn value authZone u : String) (w0 : World σ)
    (hzone : env.FindZoneByFqdn fqdn p.dns01Nameservers = .ok authZone)
    (hname : extractRecordName fqdn (UnFqdn authZone) ≠ "")
    (hurl : env.resolveURL p.client.baseURL
      ("/v1/domains/" ++ UnFqdn authZone ++ "/records/TXT/"
        ++ extractRecordName fqdn (UnFqdn authZone)) = .ok u)
    (hfresh : ∀ r ∈ records w0.server u, r.data ≠ value) :
    ∃ (rec : DNSRecord) (get put : Request),
      get = { method := .GET, url := u, accept := "application/json",
              contentType := "application/json",
              authorization := "sso-key " ++ p.client.apiKey ++ ":" ++ p.client.apiSecret,
              body := none } ∧
      put = { method := .PUT, url := u, accept := "application/json",
              contentType := "application/json",
              authorization := "sso-key " ++ p.client.apiKey ++ ":" ++ p.client.apiSecret,
              body := some [rec] } ∧
      rec.data = value ∧ rec.name = extractRecordName fqdn (UnFqdn authZone) ∧
      (Present env p domain fqdn value w0).1 = .ok () ∧
      (Present env p domain fqdn value w0).2.sent = w0.sent ++ [get, put] ∧
      records (Present env p domain fqdn value w0).2.server u = [rec] ∧
      (Present env p domain fqdn value (Present env p domain fqdn value w0).2).1 = .ok () ∧
      (Present env p domain fqdn value (Present env p domain fqdn value w0).2).2.sent
        = w0.sent ++ [get, put, get] ∧
      (Present env p domain fqdn value (Present env p domain fqdn value w0).2).2.server
        = (Present env p domain fqdn value w0).2.server ∧
      ((Present env p domain fqdn value (Present env p domain fqdn value w0).2).2.sent.filter
          (fun r => decide (r.method = .PUT))).length
        = (w0.sent.filter (fun r => decide (r.method = .PUT))).length + 1 := by
  have hurl2 : env.resolveURL p.client.baseURL
      (recordsPath (UnFqdn authZone) (extractRecordName fqdn (UnFqdn authZone))) = .ok u := hurl
  -- the first call: a GET, then one PUT of a record named recordName with data = value
  have hfirst : ∃ (rec : DNSRecord) (s' : σ), rec.data = value ∧
      rec.name = extractRecordName fqdn (UnFqdn authZone) ∧ records s' u = [rec] ∧
      Present env p domain fqdn value w0
        = (.ok (), { server := s', sent := w0.sent ++ [buildRequest p.client .GET u none,
            buildRequest p.client .PUT u (some [rec])] }) := by
    have hget := GetTXTRecord_faithful env records hstore p.client _ _ u w0 hname hurl2
    cases hfound : firstNamed (extractRecordName fqdn (UnFqdn authZone)) (records w0.server u) with
    | none =>
      obtain ⟨s', hrec, hset⟩ := SetTXTRecord_faithful env records hstore p.client
        (UnFqdn authZone) (extractRecordName fqdn (UnFqdn authZone)) u
        { name := extractRecordName fqdn (UnFqdn authZone), type := "TXT", data := value }
        { server := w0.server, sent := w0.sent ++ [buildRequest p.client .GET u none] } hurl2
      refine ⟨_, s', rfl, rfl, hrec, ?_⟩
      rw [hfound] at hget
      simp [Present, hzone, hget, hset]
    | some r =>
      obtain ⟨hrn, hmem⟩ := firstNamed_name _ r _ hfound
      have hne : r.data ≠ value := hfresh r hmem
      obtain ⟨s', hrec, hset⟩ := SetTXTRecord_faithful env records hstore p.client
        (UnFqdn authZone) (extractRecordName fqdn (UnFqdn authZone)) u
        { r with data := value }
        { server := w0.server, sent := w0.sent ++ [buildRequest p.client .GET u none] } hurl2
      refine ⟨{ r with data := value }, s', rfl, hrn, hrec, ?_⟩
      rw [hfound] at hget
      simp [Present, hzone, hget, hset, hne]
  obtain ⟨rec, s', hdata, hrn, hrec, hP1⟩ := hfirst
  -- the second call: the GET finds the record just stored, whose data is the value
  have hget2 := GetTXTRecord_faithful env records hstore p.client _ _ u
    { server := s', sent := w0.sent ++ [buildRequest p.client .GET u none,
        buildRequest p.client .PUT u (some [rec])] } hname hurl2
  have hfound2 : firstNamed (extractRecordName fqdn (UnFqdn authZone)) (records s' u)
      = some rec := by
    rw [hrec]
    simp [firstNamed, hrn]
  simp only [hfound2] at hget2
  have hP2 : Present env p domain fqdn value
      { server := s', sent := w0.sent ++ [buildRequest p.client .GET u none,
          buildRequest p.client .PUT u (some [rec])] }
      = (.ok (), { server := s', sent := (w0.sent ++ [buildRequest p.client .GET u none,
          buildRequest p.client .PUT u (some [rec])]) ++ [buildRequest p.client .GET u none] }) := by
    simp [Present, hzone, hget2, hdata]
  refine ⟨rec, _, _, rfl, rfl, hdata, hrn, ?_⟩
  rw [hP1]
  dsimp only
  rw [hP2]
  refine ⟨rfl, rfl, hrec, rfl, ?_, rfl, ?_⟩
  · show (w0.sent ++ [buildRequest p.client .GET u none,
        buildRequest p.client .PUT u (some [rec])]) ++ [buildRequest p.client .GET u none] = _
    simp [buildRequest]
  · show (((w0.sent ++ [buildRequest p.client .GET u none,
        buildRequest p.client .PUT u (some [rec])]) ++ [buildRequest p.client .GET u none]).filter
          (fun r => decide (r.method = .PUT))).length = _
    simp [buildRequest, List.filter_append, List.filter_cons]

/-- C1 at a concrete input: the fresh name "_acme-challenge.example.com." over
the empty record store. Both calls return nil, the requests sent are the GET,
the one PUT of the record with data "token", and the GET of the second call,
and the second call leaves the store as the first left it. -/
theorem Present_idempotent_witness :
    (∀ r ∈ Store.records emptyWorld.server
        "https://api.godaddy.com/v1/domains/example.com/records/TXT/_acme-challenge",
        r.data ≠ "token") ∧
      (Present (storeEnv "example.com.") demoProvider "example.com"
        "_acme-challenge.example.com." "token" emptyWorld).1 = .ok () ∧
      (Present (storeEnv "example.com.") demoProvider "example.com"
        "_acme-challenge.example.com." "token"
        (Present (storeEnv "example.com.") demoProvider "example.com"
          "_acme-challenge.example.com." "token" emptyWorld).2).1 = .ok () ∧
      (Present (storeEnv "example.com.") demoProvider "example.com"
        "_acme-challenge.example.com." "token"
        (Present (storeEnv "example.com.") demoProvider "example.com"
          "_acme-challenge.example.com." "token" emptyWorld).2).2.sent
        = [ { method := .GET
              url := "https://api.godaddy.com/v1/domains/example.com/records/TXT/_acme-challenge"
              accept := "application/json", contentType := "application/json"
              authorization := "sso-key key:secret", body := none },
            { method := .PUT
              url := "https://api.godaddy.com/v1/domains/example.com/records/TXT/_acme-challenge"
              accept := "application/json", contentType := "application/json"
              authorization := "sso-key key:secret"
              body := some [
                { name := "_acme-challenge", type := "TXT", data := "token",
                  ttl := 0, priority := 0, port := 0, protocol := "", service := "",
                  weight := 0 }] },
            { method := .GET
              url := "https://api.godaddy.com/v1/domains/example.com/records/TXT/_acme-challenge"
              accept := "application/json", contentType := "application/json"
              authorization := "sso-key key:secret", body := none } ] ∧
      (Present (storeEnv "example.com.") demoProvider "example.com"
        "_acme-challenge.example.com." "token"
        (Present (storeEnv "example.com.") demoProvider "example.com"
          "_acme-challenge.example.com." "token" emptyWorld).2).2.server
        = (Present (storeEnv "example.com.") demoProvider "example.com"
          "_acme-challenge.example.com." "token" emptyWorld).2.server := by
  have hfresh : ∀ r ∈ Store.records emptyWorld.server
      "https://api.godaddy.com/v1/domains/example.com/records/TXT/_acme-challenge",
      r.data ≠ "token" := by
    intro r hr
    cases hr
  obtain ⟨rec, get, put, _, _, _, _, h1, _, _, h2, _, hsrv, _⟩ :=
    Present_idempotent (storeEnv "example.com.") Store.records
      (storeEnv_faithful "example.com.") demoProvider "example.com"
      "_acme-challenge.example.com." "token" "example.com."
      "https://api.godaddy.com/v1/domains/example.com/records/TXT/_acme-challenge"
      emptyWorld rfl (by decide) (congrArg Except.ok (by decide)) hfresh
  exact ⟨hfresh, h1, h2, rfl, hsrv⟩

/-- C1, counterexample, at two inputs over the empty faithful store, where
no record has data = "token" and the zone of both names resolves to
"example.com.".

For the name "%zz.example.com." the record name is "%zz", which is not
empty; the request URL of the path ending in "%zz" does not resolve (an
invalid percent escape), so `newRequest` returns that error before any
request is sent. For the name ".example.com." the record name is empty, so
`GetTXTRecord` returns "record name cannot be empty" before any request is
sent.

In both cases both calls of `Present` fail and no request is sent at all:
no PUT instead of exactly one, and an error from the second call. -/
theorem Present_request_not_sent :
    FaithfulStore (strictEnv "example.com.") Store.records ∧
      (∀ url, ∀ r ∈ Store.records emptyWorld.server url, r.data ≠ "token") ∧
      ((strictEnv "example.com.").FindZoneByFqdn "%zz.example.com."
          demoProvider.dns01Nameservers = .ok "example.com." ∧
        extractRecordName "%zz.example.com." (UnFqdn "example.com.") = "%zz" ∧
        (Present (strictEnv "example.com.") demoProvider "example.com" "%zz.example.com."
          "token" emptyWorld).1
          = .error "parse \"/v1/domains/example.com/records/TXT/%zz\": invalid URL escape \"%zz\"" ∧
        (Present (strictEnv "example.com.") demoProvider "example.com" "%zz.example.com."
          "token" emptyWorld).2.sent = [] ∧
        (Present (strictEnv "example.com.") demoProvider "example.com" "%zz.example.com."
          "token"
          (Present (strictEnv "example.com.") demoProvider "example.com" "%zz.example.com."
            "token" emptyWorld).2).1
          = .error "parse \"/v1/domains/example.com/records/TXT/%zz\": invalid URL escape \"%zz\"" ∧
        (Present (strictEnv "example.com.") demoProvider "example.com" "%zz.example.com."
          "token"
          (Present (strictEnv "example.com.") demoProvider "example.com" "%zz.example.com."
            "token" emptyWorld).2).2.sent = []) ∧
      ((strictEnv "example.com.").FindZoneByFqdn ".example.com."
          demoProvider.dns01Nameservers = .ok "example.com." ∧
        extractRecordName ".example.com." (UnFqdn "example.com.") = "" ∧
        (strictEnv "example.com.").resolveURL demoProvider.client.baseURL
          ("/v1/domains/" ++ UnFqdn "example.com." ++ "/records/TXT/"
            ++ extractRecordName ".example.com." (UnFqdn "example.com."))
          = .ok "https://api.godaddy.com/v1/domains/example.com/records/TXT/" ∧
        (Present (strictEnv "example.com.") demoProvider "example.com" ".example.com."
          "token" emptyWorld).1 = .error "record name cannot be empty" ∧
        (Present (strictEnv "example.com.") demoProvider "example.com" ".example.com."
          "token" emptyWorld).2.sent = [] ∧
        (Present (strictEnv "example.com.") demoProvider "example.com" ".example.com."
          "token"
          (Present (strictEnv "example.com.") demoProvider "example.com" ".example.com."
            "token" emptyWorld).2).1 = .error "record name cannot be empty" ∧
        (Present (strictEnv "example.com.") demoProvider "example.com" ".example.com."
          "token"
          (Present (strictEnv "example.com.") demoProvider "example.com" ".example.com."
            "token" emptyWorld).2).2.sent = []) := by
  refine ⟨strictEnv_faithful "example.com.", ?_, ?_, ?_⟩
  · intro url r hr
    cases hr
  · exact ⟨rfl, by decide, rfl, rfl, rfl, rfl⟩
  · exact ⟨rfl, by decide, rfl, rfl, rfl, rfl, rfl⟩

end Godaddy
